import Mathlib

/-!
Shallow embedding of the MatrixRPGClient wrapper (MatrixRPGClient.js, the
first of the two near-duplicate client implementations in the bundle: the
one with the persistent message cache, which every claim refers to).

JS objects become Lean structures; the per-room message cache
(`this.messageCache`, an object keyed by room id holding arrays) becomes a
function from room ids to lists; `Math.random()`-driven draws take an
explicit random source `rng : Nat → Nat`; async network interaction in the
history loader is scripted as a list of server responses.
-/

namespace MatrixRPG

/-- A cached message record, as built by the client (`messageObj` literals in
`sendMessage`, `sendRoll`, `processEvents`, the live-timeline handler, ...).
Fields that a given JS code path does not set are modeled with defaults
(`none`, `false`, `[]`). -/
structure Message where
  id : String
  sender : String
  roomId : String
  text : String
  type : String
  powerLevel : Nat := 0
  timestamp : Nat := 0
  historical : Bool := false
  self : Bool := false
  redacted : Bool := false
  important : Bool := false
  dice : Option String := none
  rolls : List Nat := []
  hits : Option Nat := none
  highEvenOdd : Option String := none
  lowEvenOdd : Option String := none
  username : Option String := none
  sceneName : Option String := none
  sceneType : Option String := none
  deriving Repr, DecidableEq

/-- The persistent message cache: `this.messageCache` maps a room id to the
ordered list of cached records for that room (`[]` when the key is absent,
matching `_getMessageCache`). -/
def MessageCache : Type := String → List Message

/-- `_addMessageToCache(roomId, message)`: append the record to the room's
list iff no existing record in that room shares its `id`. -/
def addMessageToCache (cache : MessageCache) (roomId : String) (msg : Message) :
    MessageCache :=
  fun r =>
    if r = roomId then
      if (cache roomId).any (fun m => m.id = msg.id) then cache roomId
      else cache roomId ++ [msg]
    else cache r

/-- `_pruneMessageCache()`: for each room, keep only the most recent 1000
records (`messages.slice(messages.length - 1000)`); rooms with at most 1000
records are left alone. -/
def pruneMessageCache (cache : MessageCache) : MessageCache :=
  fun r =>
    if (cache r).length > 1000 then (cache r).drop ((cache r).length - 1000)
    else cache r

/-- The redaction update applied to a room's record list by the
`m.room.redaction` timeline handler and by `deleteLastMessage` /
`clearAllMessages`: `map(msg => msg.id === redactedId ? { ...msg, redacted:
true } : msg)`. -/
def markRedacted (redactedId : String) (msgs : List Message) : List Message :=
  msgs.map (fun m => if m.id = redactedId then { m with redacted := true } else m)

/-- The dedup invariant on the cache: within each room, record ids are
pairwise distinct (at most one stored record per (room, event id)). -/
def cacheInvariant (cache : MessageCache) : Prop :=
  ∀ r, ((cache r).map Message.id).Nodup

/-! ## Dice engine -/

/-- `parseInt(digits, 10)` on a string of decimal digit characters. -/
def digitsToNat (cs : List Char) : Nat :=
  cs.foldl (fun acc c => acc * 10 + (c.toNat - 48)) 0

/-- The regex `^(\d+)d(\d+)$` of `rollDice`: a nonempty digit run, the
literal character `d`, then a nonempty digit run ending the string. Since a
digit run cannot contain `d`, the match is the maximal digit run, then `d`,
then all remaining characters, which must be digits. Returns the two
`parseInt`ed capture groups. -/
def parseDiceChars (cs : List Char) : Option (Nat × Nat) :=
  let a := cs.takeWhile Char.isDigit
  match a, cs.dropWhile Char.isDigit with
  | [], _ => none
  | _ :: _, 'd' :: b =>
    if b ≠ [] ∧ b.all Char.isDigit then some (digitsToNat a, digitsToNat b)
    else none
  | _ :: _, _ => none

structure RollResult where
  rolls : List Nat
  total : Nat
  deriving Repr, DecidableEq

/-- One `Math.floor(Math.random() * sides) + 1` draw, with the
nondeterminism of `Math.random() ∈ [0,1)` supplied as a natural `r`: for
`sides > 0` the floor ranges over exactly `[0, sides-1]`, modeled as
`r % sides`; for `sides = 0` JavaScript yields `Math.floor(x * 0) = 0`. -/
def randomRoll (sides : Nat) (r : Nat) : Nat :=
  (if sides = 0 then 0 else r % sides) + 1

/-- `rollDice(notation)`: parse `^(\d+)d(\d+)$` (else `null`), reject
`count > 100 || sides > 1000` (else `null`; note the source checks no lower
bounds), then produce `count` random draws and their sum. -/
def rollDice (s : String) (rng : Nat → Nat) : Option RollResult :=
  match parseDiceChars s.data with
  | none => none
  | some (count, sides) =>
    if count > 100 ∨ sides > 1000 then none
    else
      let rolls := (List.range count).map (fun i => randomRoll sides (rng i))
      some { rolls := rolls, total := rolls.foldl (· + ·) 0 }

/-! ## Roll payload derivation (`sendRoll`) -/

/-- `Math.max(...rolls)` for a nonempty list. -/
def listMax : List Nat → Nat
  | [] => 0
  | x :: xs => xs.foldl Nat.max x

/-- `Math.min(...rolls)` for a nonempty list. -/
def listMin : List Nat → Nat
  | [] => 0
  | x :: xs => xs.foldl Nat.min x

/-- `n % 2 === 0 ? 'even' : 'odd'`. -/
def parityStr (n : Nat) : String :=
  if n % 2 = 0 then "even" else "odd"

/-- `Math.max(...rolls) % 2 === 0 ? 'even' : 'odd'`. On an empty list
`Math.max()` is `-Infinity`, `-Infinity % 2` is `NaN`, and `NaN === 0` is
false, so JavaScript lands on `'odd'`. -/
def maxParity (rolls : List Nat) : String :=
  match rolls with
  | [] => "odd"
  | x :: xs => parityStr (xs.foldl Nat.max x)

/-- `Math.min(...rolls) % 2 === 0 ? 'even' : 'odd'`, with the same
`NaN`-driven `'odd'` on an empty list. -/
def minParity (rolls : List Nat) : String :=
  match rolls with
  | [] => "odd"
  | x :: xs => parityStr (xs.foldl Nat.min x)

/-- `this.userId.split(':')[0]`: the part of the user id before the first
colon. -/
def localPart (userId : String) : String :=
  ⟨userId.data.takeWhile (fun c => c ≠ ':')⟩

/-- The structured `formatted_body` payload sent by `sendRoll`. -/
structure RollPayload where
  dice : String
  rolls : List Nat
  hits : Nat
  highEvenOdd : String
  lowEvenOdd : String
  username : String
  deriving Repr, DecidableEq

/-- The derived-field computation of `sendRoll` on a roll result: hits =
count of even rolls, high/low parity = parity of `Math.max`/`Math.min` of
the rolls; the payload embeds the same `rolls` array. -/
def mkRollPayload (s : String) (userId : String) (res : RollResult) : RollPayload :=
  let hits := (res.rolls.filter (fun r => r % 2 = 0)).length
  { dice := s
    rolls := res.rolls
    hits := hits
    highEvenOdd := maxParity res.rolls
    lowEvenOdd := minParity res.rolls
    username := localPart userId }

/-- `sendRoll(notation)` up to the outgoing payload: roll the dice (failing
when `rollDice` returns `null`), then derive the payload fields. -/
def sendRollPayload (s : String) (userId : String) (rng : Nat → Nat) :
    Option RollPayload :=
  match rollDice s rng with
  | none => none
  | some res => some (mkRollPayload s userId res)

/-! ## Command dispatch (`processCommand`) -/

/-- `input.startsWith(pat)` on character lists. -/
def startsWithL : List Char → List Char → Bool
  | _, [] => true
  | [], _ :: _ => false
  | c :: cs, p :: ps => c = p && startsWithL cs ps

/-- `input.split(' ')`: split on every single space, keeping empty pieces. -/
def splitSp : List Char → List (List Char)
  | [] => [[]]
  | c :: cs =>
    match splitSp cs with
    | [] => [[]]
    | g :: gs => if c = ' ' then [] :: g :: gs else (c :: g) :: gs

/-- JavaScript falsiness of `parts[i]`: `undefined` or the empty string. -/
def jsFalsyStr (o : Option (List Char)) : Bool :=
  match o with
  | none => true
  | some [] => true
  | some (_ :: _) => false

/-- `s.trim()`: strip leading and trailing whitespace. -/
def trimWs (cs : List Char) : List Char :=
  ((cs.dropWhile Char.isWhitespace).reverse.dropWhile Char.isWhitespace).reverse

/-- Which branch of `processCommand`'s `if`/`else if` chain fires, with the
arguments that branch parses out of the input. `cmdError` is a triggered
usage error with the exact message; `unknownCmd` is the final
`input.startsWith('/')` branch, which triggers the error event with message
`Unknown command` and returns `false`. -/
inductive CmdOutcome where
  | noInput
  | cmdError (msg : String)
  | loginAct (username password : String)
  | joinAct (roomId : String) (inviteCode : Option String)
  | leaveAct
  | resetAct
  | clearCacheAct
  | rollAct (nota : String)
  | sceneAct (sceneName sceneType : String)
  | narrateAct (text : String)
  | deleteAct
  | logoutAct
  | unknownCmd
  | sendMessageAct (text : String)
  deriving Repr, DecidableEq

/-- The dispatch chain of `processCommand(input, type)`, branch for branch
in source order. In-branch precondition checks that only consult parsed
arguments (missing username, bad dice notation, empty scene name, ...) are
resolved here; checks against client state (`this.room`) stay inside the
selected branch's body and are not part of the dispatch. -/
def processCommand (input : String) : CmdOutcome :=
  let cs := input.data
  if cs = [] then .noInput
  else if startsWithL cs "/login ".data then
    let parts := splitSp cs
    if jsFalsyStr (parts.get? 1) || jsFalsyStr (parts.get? 2) then
      .cmdError "Usage: /login username password"
    else .loginAct ⟨(parts.get? 1).getD []⟩ ⟨(parts.get? 2).getD []⟩
  else if startsWithL cs "/join ".data then
    let parts := splitSp cs
    if jsFalsyStr (parts.get? 1) then
      .cmdError "Usage: /join #room:matrix.org [INVITE_CODE]"
    else
      .joinAct ⟨(parts.get? 1).getD []⟩
        (match parts.get? 2 with
         | some (c :: rest) => some ⟨c :: rest⟩
         | _ => none)
  else if startsWithL cs "/leave".data then .leaveAct
  else if startsWithL cs "/reset".data then .resetAct
  else if startsWithL cs "/clear-cache".data then .clearCacheAct
  else if startsWithL cs "/roll ".data then
    let nota := (splitSp cs).get? 1
    if jsFalsyStr nota || (parseDiceChars (nota.getD [])).isNone then
      .cmdError "Usage: /roll XdY (e.g., /roll 2d6)"
    else .rollAct ⟨nota.getD []⟩
  else if startsWithL cs "/scene ".data then
    let sceneName := trimWs (cs.drop 7)
    if sceneName = [] then .cmdError "Usage: /scene Scene Name"
    else .sceneAct ⟨sceneName⟩ "regular"
  else if cs = "narrate".data ∨ startsWithL cs "narrate ".data then
    let text := if cs = "narrate".data then [] else trimWs (cs.drop 8)
    if text = [] then .cmdError "Usage: narrate Your narration text"
    else .narrateAct ⟨text⟩
  else if startsWithL cs "/narrate ".data then
    let text := trimWs (cs.drop 9)
    if text = [] then .cmdError "Usage: /narrate Your narration text"
    else .narrateAct ⟨text⟩
  else if startsWithL cs "/delete".data then .deleteAct
  else if startsWithL cs "/logout".data then .logoutAct
  else if startsWithL cs "/".data then .unknownCmd
  else .sendMessageAct input

/-- Coarse classification of what a `processCommand` branch body does. -/
inductive EffectClass where
  | network
  | localMutation
  | pureFailure
  deriving Repr, DecidableEq

/-- Effect class of a dispatch outcome, transcribed from the selected
branch's body: `network` branches call an async client operation (once the
body's own state-precondition checks pass), `localMutation` branches
synchronously mutate client/session/cache state, `pureFailure` branches
only trigger an error event and return a failure value, touching nothing
else (the `unknownCmd` body is exactly `_triggerEvent('error', ...)`
followed by `return false`). -/
def outcomeEffect : CmdOutcome → EffectClass
  | .noInput => .pureFailure
  | .cmdError _ => .pureFailure
  | .loginAct _ _ => .network
  | .joinAct _ _ => .network
  | .leaveAct => .network
  | .resetAct => .localMutation
  | .clearCacheAct => .localMutation
  | .rollAct _ => .network
  | .sceneAct _ _ => .network
  | .narrateAct _ => .network
  | .deleteAct => .network
  | .logoutAct => .localMutation
  | .unknownCmd => .pureFailure
  | .sendMessageAct _ => .network

/-- The error-event message a failing dispatch outcome triggers. -/
def outcomeErrorMsg : CmdOutcome → Option String
  | .cmdError m => some m
  | .unknownCmd => some "Unknown command"
  | _ => none

/-! ## History loader (`_loadRoomHistory` / `_processHistoricalMessage`) -/

/-- A timeline event as the loader reads it through the SDK accessors
(`getId`, `getType`, `getSender`, `getTs`, `isRedacted`, `getContent`).
The `fb*` fields are the members of `content.formatted_body` (absent ones
are `none` / `[]`). -/
structure MatrixEvent where
  id : String
  typ : String
  sender : String
  ts : Nat
  redacted : Bool
  body : String
  format : Option String
  fbType : Option String
  fbDice : Option String := none
  fbRolls : List Nat := []
  fbHits : Option Nat := none
  fbHigh : Option String := none
  fbLow : Option String := none
  fbUsername : Option String := none
  fbSceneName : Option String := none
  fbSceneType : Option String := none
  deriving Repr, DecidableEq

/-- The mutable state `_loadRoomHistory` threads through event processing:
the `processedEvents` set, the message cache, the stream of events
triggered on the bus so far (channel name paired with payload), and the
`this.isLoadingHistory` flag (set to `true` by `joinRoom` around the whole
load). -/
structure LoadState where
  processed : List String
  cache : MessageCache
  published : List (String × Message)
  isLoadingHistory : Bool

/-- `_processHistoricalMessage(msg)`: skipped entirely while
`this.isLoadingHistory` is set and the message lacks the `important` flag;
otherwise triggers the `roll`, `scene`, or `message` event according to
`msg.type`. -/
def processHistoricalMessage (st : LoadState) (msg : Message) : LoadState :=
  if st.isLoadingHistory ∧ ¬msg.important then st
  else
    let channel :=
      if msg.type = "roll" then "roll"
      else if msg.type = "scene" then "scene"
      else "message"
    { st with published := st.published ++ [(channel, msg)] }

/-- The `messageObj` a page event is turned into by `processEvents`: type
tag from `content.formatted_body?.type` defaulting to `chat`, power level
looked up in room state (`powerOf`, defaulting to 0 for unknown senders),
`historical: true`, and roll/scene extras when the custom format tag is
present. -/
def buildHistoricalMessage (roomId : String) (powerOf : String → Nat)
    (ev : MatrixEvent) : Message :=
  let messageType := ev.fbType.getD "chat"
  let base : Message :=
    { id := ev.id
      sender := ev.sender
      roomId := roomId
      text := ev.body
      type := messageType
      powerLevel := powerOf ev.sender
      timestamp := ev.ts
      historical := true }
  if messageType = "roll" ∧ ev.format = some "org.matrix.custom.rpg" then
    { base with
        dice := ev.fbDice
        rolls := ev.fbRolls
        hits := ev.fbHits
        highEvenOdd := ev.fbHigh
        lowEvenOdd := ev.fbLow
        username := ev.fbUsername }
  else if messageType = "scene" ∧ ev.format = some "org.matrix.custom.rpg" then
    { base with sceneName := ev.fbSceneName, sceneType := ev.fbSceneType }
  else base

/-- One iteration of the `events.forEach` body of `processEvents`: skip
processed or redacted events, record the id as processed, and for
`m.room.message` events build the record, cache it, hand it to
`_processHistoricalMessage`, and count it as new. -/
def processOneEvent (roomId : String) (powerOf : String → Nat)
    (acc : LoadState × Nat) (ev : MatrixEvent) : LoadState × Nat :=
  let st := acc.1
  if st.processed.contains ev.id || ev.redacted then acc
  else
    let st1 : LoadState := { st with processed := st.processed ++ [ev.id] }
    if ev.typ = "m.room.message" then
      let msg := buildHistoricalMessage roomId powerOf ev
      let st2 : LoadState := { st1 with cache := addMessageToCache st1.cache roomId msg }
      (processHistoricalMessage st2 msg, acc.2 + 1)
    else (st1, acc.2)

/-- `processEvents(events)`: fold the per-event body over a page, returning
the new state and the `newEvents` count. -/
def processEvents (roomId : String) (powerOf : String → Nat)
    (st : LoadState) (events : List MatrixEvent) : LoadState × Nat :=
  events.foldl (processOneEvent roomId powerOf) (st, 0)

/-! ## Backward pagination (`paginateBackward`) -/

/-- JavaScript `o || d` on an optional number (`error.data?.retry_after_ms
|| 5000`): absent and `0` are both falsy. -/
def jsOrDefault (o : Option Nat) (d : Nat) : Nat :=
  match o with
  | some n => if n = 0 then d else n
  | none => d

/-- JavaScript `s || d` on a string (`error.message || 'Unknown error'`). -/
def jsOrStr (s d : String) : String :=
  if s = "" then d else s

/-- What one awaited `createMessagesRequest` resolves to: a page (`chunk`
plus optional `end` token), a rejection with `errcode === 'M_LIMIT_EXCEEDED'`
carrying `data?.retry_after_ms`, or any other rejection with its
`error.message`. -/
inductive PageResponse where
  | page (chunk : List MatrixEvent) (endToken : Option String)
  | rateLimited (retryAfterMs : Option Nat)
  | failure (msg : String)
  deriving Repr, DecidableEq

/-- Externally visible steps `paginateBackward` takes: a `setTimeout` wait
of the given milliseconds, or a system notice triggered on the `message`
channel. -/
inductive PagAction where
  | waited (ms : Nat)
  | publishedSystem (text : String)
  deriving Repr, DecidableEq

/-- The system-notice payload `_loadRoomHistory` triggers directly on the
bus (`sender: 'system'`, `type: 'system'`). -/
def systemNotice (roomId text : String) : Message :=
  { id := ""
    sender := "system"
    roomId := roomId
    text := text
    type := "system" }

/-- Trigger a system notice on the `message` channel. -/
def publishSystem (st : LoadState) (roomId text : String) : LoadState :=
  { st with published := st.published ++ [("message", systemNotice roomId text)] }

/-- `paginateBackward(limit)` with the successive server responses
scripted as a list (one entry consumed per `createMessagesRequest`
round-trip; an exhausted script ends the run as-is). An empty chunk
publishes the all-loaded notice and stops; a non-empty chunk is processed
and pagination continues (after the 500 ms anti-rate-limit pause) only
when an `end` token exists and the page yielded new events. A rejection
with `M_LIMIT_EXCEEDED` waits `retry_after_ms || 5000` and retries; any
other rejection publishes a system notice and stops. -/
def paginateBackward (roomId : String) (powerOf : String → Nat) :
    List PageResponse → LoadState → LoadState × List PagAction
  | [], st => (st, [])
  | .rateLimited ra :: rest, st =>
    let r := paginateBackward roomId powerOf rest st
    (r.1, .waited (jsOrDefault ra 5000) :: r.2)
  | .failure msg :: _, st =>
    let text := "Couldn't load more history: " ++ jsOrStr msg "Unknown error"
    (publishSystem st roomId text, [.publishedSystem text])
  | .page chunk endToken :: rest, st =>
    if chunk = [] then
      (publishSystem st roomId "All message history loaded",
       [.publishedSystem "All message history loaded"])
    else
      let pr := processEvents roomId powerOf st chunk
      if endToken.isSome ∧ pr.2 > 0 then
        let r := paginateBackward roomId powerOf rest pr.1
        (r.1, .waited 500 :: r.2)
      else (pr.1, [])

/-! ## Event listener register (`on` / `off` / `_triggerEvent`) -/

/-- The keys of `this.listeners` as initialized in the constructor. -/
def knownEventNames : List String :=
  ["message", "roll", "login", "error", "roomJoin", "roomLeave", "roomState",
   "scene", "narrate"]

/-- The listener register: the `this.listeners` object as an association
list from event name to the array of registered handlers (handlers drawn
from an arbitrary type `H` with decidable identity, standing for JS
function references compared with `!==`). -/
structure Client (H : Type) where
  listeners : List (String × List H)
  deriving Repr, DecidableEq

/-- `this.listeners[event]`: `undefined` when the key is absent. -/
def lookupListeners {H : Type} (c : Client H) (event : String) : Option (List H) :=
  (c.listeners.find? (fun p => p.1 = event)).map Prod.snd

/-- Replace the handler array stored under an existing key. -/
def setListeners {H : Type} (c : Client H) (event : String) (v : List H) : Client H :=
  ⟨c.listeners.map (fun p => if p.1 = event then (p.1, v) else p)⟩

/-- `on(event, callback)`: push onto the array if `this.listeners[event]`
exists, else do nothing; `return this` is the returned client value. -/
def Client.on {H : Type} (c : Client H) (event : String) (callback : H) : Client H :=
  match lookupListeners c event with
  | some hs => setListeners c event (hs ++ [callback])
  | none => c

/-- `off(event, callback)`: filter the callback out of the array if the key
exists, else do nothing; `return this` is the returned client value. -/
def Client.off {H : Type} [DecidableEq H] (c : Client H) (event : String)
    (callback : H) : Client H :=
  match lookupListeners c event with
  | some hs => setListeners c event (hs.filter (fun cb => cb ≠ callback))
  | none => c

/-- `_triggerEvent(event, data)`: the handlers invoked, in registration
order (none when the key is absent). -/
def Client.triggerEvent {H : Type} (c : Client H) (event : String) : List H :=
  (lookupListeners c event).getD []

/-- The freshly constructed client: every known event name mapped to an
empty handler array. -/
def initClient (H : Type) : Client H :=
  ⟨knownEventNames.map (fun n => (n, []))⟩

/-! ## Sample records for concrete witnesses -/

/-- A sample chat record. -/
def msgA : Message :=
  { id := "$a1", sender := "@alice:matrix.org", roomId := "!r:matrix.org",
    text := "hello", type := "chat" }

/-- A second sample record with a different event id. -/
def msgB : Message :=
  { id := "$b2", sender := "@bob:matrix.org", roomId := "!r:matrix.org",
    text := "hi", type := "game" }

/-! ## Cache theorems -/

/-- Claim C4: cache put is idempotent — inserting a message whose event id
already exists in the room's cache leaves the whole cache unchanged (count
and content), and `put` preserves the invariant that every room holds at
most one record per event id. -/
theorem cache_put_idempotent (cache : MessageCache) (roomId : String) (msg : Message) :
    ((cache roomId).any (fun m => m.id = msg.id) = true →
      addMessageToCache cache roomId msg = cache) ∧
    (cacheInvariant cache → cacheInvariant (addMessageToCache cache roomId msg)) := by
  constructor
  · intro h
    funext r
    simp only [addMessageToCache]
    rw [if_pos h]
    by_cases hr : r = roomId
    · rw [if_pos hr, hr]
    · rw [if_neg hr]
  · intro hinv r
    simp only [addMessageToCache]
    by_cases hr : r = roomId
    · rw [if_pos hr]
      by_cases h : (cache roomId).any (fun m => m.id = msg.id) = true
      · rw [if_pos h]
        exact hinv roomId
      · rw [if_neg h, List.map_append, List.nodup_append]
        refine ⟨hinv roomId, by simp, ?_⟩
        intro x hx hx'
        simp only [List.map_cons, List.map_nil, List.mem_singleton] at hx'
        subst hx'
        rw [List.mem_map] at hx
        obtain ⟨m, hm, hmid⟩ := hx
        refine h ?_
        rw [List.any_eq_true]
        exact ⟨m, hm, by simp [hmid]⟩
    · rw [if_neg hr]
      exact hinv r

/-- Witness for C4 at a concrete cache: re-inserting `msgA` into a room
already holding it changes nothing. -/
theorem cache_put_idempotent_witness :
    addMessageToCache (fun _ => [msgA]) "!r:matrix.org" msgA = (fun _ => [msgA]) :=
  (cache_put_idempotent (fun _ => [msgA]) "!r:matrix.org" msgA).1 (by decide)

/-- Claim C5: pruning a room with more than 1000 records leaves exactly
1000, namely the most recent 1000 by insertion order (element `i` of the
result is element `length - 1000 + i` of the original); rooms with at most
1000 records are unchanged. -/
theorem prune_keeps_newest_1000 (cache : MessageCache) (r : String) :
    ((cache r).length > 1000 →
      ((pruneMessageCache cache) r).length = 1000 ∧
      ∀ i, i < 1000 →
        ((pruneMessageCache cache) r)[i]? = (cache r)[(cache r).length - 1000 + i]?) ∧
    ((cache r).length ≤ 1000 → (pruneMessageCache cache) r = cache r) := by
  constructor
  · intro h
    simp only [pruneMessageCache]
    rw [if_pos h]
    refine ⟨by rw [List.length_drop]; omega, ?_⟩
    intro i hi
    rw [List.getElem?_drop]
  · intro h
    simp only [pruneMessageCache]
    rw [if_neg (by omega)]

/-- Witness for C5: a room with 1500 cached records is pruned to exactly
1000. -/
theorem prune_keeps_newest_1000_witness :
    ((pruneMessageCache (fun _ => List.replicate 1500 msgA)) "!r:matrix.org").length = 1000 :=
  ((prune_keeps_newest_1000 (fun _ => List.replicate 1500 msgA) "!r:matrix.org").1
    (by rw [List.length_replicate]; omega)).1

/-- Claim C6: marking an event id redacted is a no-op when no record with
that id exists; in general each position of the room's list keeps its
record unchanged unless the id matches, in which case only `redacted` is
set to `true` (the structure-update leaves every other field as it was),
and the record count never changes. -/
theorem markRedacted_frame (msgs : List Message) (rid : String) :
    ((∀ m ∈ msgs, m.id ≠ rid) → markRedacted rid msgs = msgs) ∧
    (markRedacted rid msgs).length = msgs.length ∧
    ∀ i : Nat, (markRedacted rid msgs)[i]? =
      (msgs[i]?).map (fun m => if m.id = rid then { m with redacted := true } else m) := by
  refine ⟨?_, ?_, ?_⟩
  · intro h
    unfold markRedacted
    conv_rhs => rw [← List.map_id msgs]
    apply List.map_congr_left
    intro m hm
    simp [h m hm]
  · unfold markRedacted
    exact List.length_map _ _
  · intro i
    unfold markRedacted
    exact List.getElem?_map _ _ _

/-- Witness for C6: redacting an id absent from a two-record room changes
nothing. -/
theorem markRedacted_frame_witness :
    markRedacted "$absent" [msgA, msgB] = [msgA, msgB] :=
  (markRedacted_frame [msgA, msgB] "$absent").1 (by decide)

/-! ## Dice engine theorems -/

/-- Claim C7: for a notation parsing as `NdM` with `1 ≤ N ≤ 100` and
`1 ≤ M ≤ 1000`, `rollDice` succeeds and the result holds exactly `N`
integers, each in `[1, M]`, whatever the random source produced. -/
theorem rollDice_valid_shape (s : String) (rng : Nat → Nat) (N M : Nat)
    (hp : parseDiceChars s.data = some (N, M))
    (hN1 : 1 ≤ N) (hN2 : N ≤ 100) (hM1 : 1 ≤ M) (hM2 : M ≤ 1000) :
    ∃ res, rollDice s rng = some res ∧
      res.rolls.length = N ∧ ∀ r ∈ res.rolls, 1 ≤ r ∧ r ≤ M := by
  refine ⟨{ rolls := (List.range N).map (fun i => randomRoll M (rng i)),
            total := ((List.range N).map (fun i => randomRoll M (rng i))).foldl
              (· + ·) 0 }, ?_, ?_, ?_⟩
  · unfold rollDice
    rw [hp]
    show (if N > 100 ∨ M > 1000 then none else _) = _
    rw [if_neg (by omega)]
  · rw [List.length_map, List.length_range]
  · intro r hr
    simp only [List.mem_map, List.mem_range] at hr
    obtain ⟨i, _, hri⟩ := hr
    subst hri
    unfold randomRoll
    rw [if_neg (by omega)]
    have := Nat.mod_lt (rng i) (show 0 < M by omega)
    omega

/-- Witness for C7: rolling `2d6` against the random source `rng i = i`
yields two values, both in `[1, 6]`. -/
theorem rollDice_valid_shape_witness :
    ∃ res, rollDice "2d6" (fun i => i) = some res ∧
      res.rolls.length = 2 ∧ ∀ r ∈ res.rolls, 1 ≤ r ∧ r ≤ 6 :=
  rollDice_valid_shape "2d6" (fun i => i) 2 6 (by decide)
    (by omega) (by omega) (by omega) (by omega)

/-- Counterexample to claim C2 as stated: `"0d6"` parses as `NdM` with
`N = 0` outside `1 ≤ N ≤ 100`, yet `rollDice` does not fail — the source
only checks the upper bounds `count > 100 || sides > 1000`, so the roll
succeeds with an empty outcome list. -/
theorem rollDice_zero_count_accepted :
    rollDice "0d6" (fun _ => 0) = some { rolls := [], total := 0 } := by
  decide

/-- Amended claim C2: `rollDice` fails exactly on notations the regex
`^(\d+)d(\d+)$` rejects and on parsed `NdM` with `N > 100` or `M > 1000`;
the lower bounds of the spec are not enforced (`N = 0` or `M = 0` is
accepted). -/
theorem rollDice_failure_iff (s : String) (rng : Nat → Nat) :
    rollDice s rng = none ↔
      parseDiceChars s.data = none ∨
      ∃ N M, parseDiceChars s.data = some (N, M) ∧ (N > 100 ∨ M > 1000) := by
  unfold rollDice
  cases hp : parseDiceChars s.data with
  | none => simp
  | some p =>
    obtain ⟨N, M⟩ := p
    by_cases h : N > 100 ∨ M > 1000
    · simp only [if_pos h, true_iff]
      exact Or.inr ⟨N, M, rfl, h⟩
    · simp only [if_neg h]
      constructor
      · intro hc
        exact absurd hc (by simp)
      · rintro (hc | ⟨N', M', hNM, hgt⟩)
        · exact absurd hc (by simp)
        · obtain ⟨rfl, rfl⟩ : N = N' ∧ M = M' := by
            simpa [Prod.ext_iff] using hNM
          exact absurd hgt h

/-- Witness for the amended C2 on concrete inputs: the malformed notations
`"d6"` and `"2x6"` fail, and the out-of-range `"101d6"` fails. -/
theorem rollDice_failure_iff_witness :
    rollDice "d6" (fun _ => 0) = none ∧
    rollDice "2x6" (fun _ => 0) = none ∧
    rollDice "101d6" (fun _ => 0) = none :=
  ⟨(rollDice_failure_iff "d6" (fun _ => 0)).mpr (Or.inl (by decide)),
   (rollDice_failure_iff "2x6" (fun _ => 0)).mpr (Or.inl (by decide)),
   (rollDice_failure_iff "101d6" (fun _ => 0)).mpr
     (Or.inr ⟨101, 6, by decide, by omega⟩)⟩

/-! ## Roll payload theorems -/

lemma foldl_max_mem (x : Nat) (xs : List Nat) : xs.foldl Nat.max x ∈ x :: xs := by
  induction xs generalizing x with
  | nil => simp
  | cons y ys ih =>
    rw [List.foldl_cons]
    rcases List.mem_cons.mp (ih (Nat.max x y)) with h | h
    · rw [h]
      rcases (show Nat.max x y = x ∨ Nat.max x y = y by
        rcases Nat.le_total x y with h' | h'
        · exact Or.inr (Nat.max_eq_right h')
        · exact Or.inl (Nat.max_eq_left h')) with h' | h' <;> simp [h']
    · exact List.mem_cons_of_mem _ (List.mem_cons_of_mem _ h)

lemma le_foldl_max (x : Nat) (xs : List Nat) : ∀ y ∈ x :: xs, y ≤ xs.foldl Nat.max x := by
  induction xs generalizing x with
  | nil =>
    intro y hy
    simp only [List.mem_singleton] at hy
    simp [hy]
  | cons z zs ih =>
    intro y hy
    rw [List.foldl_cons]
    rcases List.mem_cons.mp hy with h | h
    · subst h
      exact le_trans (Nat.le_max_left y z) (ih (Nat.max y z) _ (List.mem_cons_self _ _))
    · rcases List.mem_cons.mp h with h2 | h2
      · subst h2
        exact le_trans (Nat.le_max_right x y) (ih (Nat.max x y) _ (List.mem_cons_self _ _))
      · exact ih (Nat.max x z) y (List.mem_cons_of_mem _ h2)

lemma foldl_min_mem (x : Nat) (xs : List Nat) : xs.foldl Nat.min x ∈ x :: xs := by
  induction xs generalizing x with
  | nil => simp
  | cons y ys ih =>
    rw [List.foldl_cons]
    rcases List.mem_cons.mp (ih (Nat.min x y)) with h | h
    · rw [h]
      rcases (show Nat.min x y = x ∨ Nat.min x y = y by
        rcases Nat.le_total x y with h' | h'
        · exact Or.inl (Nat.min_eq_left h')
        · exact Or.inr (Nat.min_eq_right h')) with h' | h' <;> simp [h']
    · exact List.mem_cons_of_mem _ (List.mem_cons_of_mem _ h)

lemma foldl_min_le (x : Nat) (xs : List Nat) : ∀ y ∈ x :: xs, xs.foldl Nat.min x ≤ y := by
  induction xs generalizing x with
  | nil =>
    intro y hy
    simp only [List.mem_singleton] at hy
    simp [hy]
  | cons z zs ih =>
    intro y hy
    rw [List.foldl_cons]
    rcases List.mem_cons.mp hy with h | h
    · subst h
      exact le_trans (ih (Nat.min y z) _ (List.mem_cons_self _ _)) (Nat.min_le_left y z)
    · rcases List.mem_cons.mp h with h2 | h2
      · subst h2
        exact le_trans (ih (Nat.min x y) _ (List.mem_cons_self _ _)) (Nat.min_le_right x y)
      · exact ih (Nat.min x z) y (List.mem_cons_of_mem _ h2)

/-- Claim C8: every successful `sendRoll` payload has `hits` equal to the
number of even values among its embedded `rolls`, `highEvenOdd` equal to
the parity of a maximum of the rolls, and `lowEvenOdd` equal to the parity
of a minimum of the rolls (rolls are nonempty whenever the notation's
count is at least 1). -/
theorem sendRoll_derived_fields (s userId : String) (rng : Nat → Nat)
    (p : RollPayload) (hp : sendRollPayload s userId rng = some p)
    (hne : p.rolls ≠ []) :
    p.hits = (p.rolls.filter (fun r => r % 2 = 0)).length ∧
    (∃ hi, hi ∈ p.rolls ∧ (∀ r ∈ p.rolls, r ≤ hi) ∧ p.highEvenOdd = parityStr hi) ∧
    (∃ lo, lo ∈ p.rolls ∧ (∀ r ∈ p.rolls, lo ≤ r) ∧ p.lowEvenOdd = parityStr lo) := by
  unfold sendRollPayload at hp
  cases hres : rollDice s rng with
  | none => rw [hres] at hp; exact absurd hp (by simp)
  | some res =>
    rw [hres] at hp
    simp only [Option.some.injEq] at hp
    subst hp
    have hr : (mkRollPayload s userId res).rolls = res.rolls := rfl
    cases hrolls : res.rolls with
    | nil =>
      rw [hr, hrolls] at hne
      exact absurd rfl hne
    | cons x xs =>
      refine ⟨rfl, ?_, ?_⟩
      · refine ⟨xs.foldl Nat.max x, ?_, ?_, ?_⟩
        · rw [hr, hrolls]
          exact foldl_max_mem x xs
        · intro r hrm
          rw [hr, hrolls] at hrm
          exact le_foldl_max x xs r hrm
        · show maxParity res.rolls = _
          rw [hrolls, maxParity]
      · refine ⟨xs.foldl Nat.min x, ?_, ?_, ?_⟩
        · rw [hr, hrolls]
          exact foldl_min_mem x xs
        · intro r hrm
          rw [hr, hrolls] at hrm
          exact foldl_min_le x xs r hrm
        · show minParity res.rolls = _
          rw [hrolls, minParity]

/-- Witness for C8: `/roll 2d6` by `@alice:matrix.org` with the random
source `rng i = i` rolls `[1, 2]`: one even roll (hits = 1), maximum 2 is
even, minimum 1 is odd. -/
theorem sendRoll_derived_fields_witness :
    ∃ p, sendRollPayload "2d6" "@alice:matrix.org" (fun i => i) = some p ∧
      p.hits = (p.rolls.filter (fun r => r % 2 = 0)).length ∧
      (∃ hi, hi ∈ p.rolls ∧ (∀ r ∈ p.rolls, r ≤ hi) ∧ p.highEvenOdd = parityStr hi) := by
  have h := sendRoll_derived_fields "2d6" "@alice:matrix.org" (fun i => i)
    (mkRollPayload "2d6" "@alice:matrix.org" { rolls := [1, 2], total := 3 })
    (by decide) (by decide)
  exact ⟨_, by decide, h.1, h.2.1⟩

/-! ## Command dispatch theorems -/

/-- The command table of spec section 4.4, as a recognizer over raw input.
Modeled from the spec's words (not the source) for comparison with the
dispatch chain of `processCommand`: a row matches when the input carries
the row's keyword. -/
def specListedCommand (input : String) : Bool :=
  startsWithL input.data "/login".data ||
  startsWithL input.data "/join".data ||
  startsWithL input.data "/leave".data ||
  startsWithL input.data "/roll".data ||
  startsWithL input.data "/scene".data ||
  startsWithL input.data "/narrate".data ||
  startsWithL input.data "/delete".data ||
  startsWithL input.data "/logout".data ||
  startsWithL input.data "/reset".data ||
  startsWithL input.data "narrate".data

/-- Counterexample to claim C3 as stated: `"/clear-cache"` starts with `/`
and matches no command of the spec's table, yet `processCommand` does not
fail with the unknown-command error — the source has an extra
`/clear-cache` branch that clears the whole message cache (a state change)
and reports success. -/
theorem unknown_command_counterexample :
    startsWithL "/clear-cache".data "/".data = true ∧
    specListedCommand "/clear-cache" = false ∧
    processCommand "/clear-cache" = .clearCacheAct ∧
    processCommand "/clear-cache" ≠ .unknownCmd ∧
    outcomeEffect (processCommand "/clear-cache") = .localMutation := by
  decide

/-- Amended claim C3: every input that starts with `/` and matches none of
the code's own command prefixes (the spec's table plus `/clear-cache`,
matched as literal prefixes with the exact spacing of the source) reaches
the final catch-all branch: it dispatches to `unknownCmd`, whose body only
triggers the error event with message `Unknown command` and returns
`false`, with no network call and no cache or session state change. -/
theorem unknown_command_pure_failure (input : String)
    (h0 : startsWithL input.data "/".data = true)
    (h1 : startsWithL input.data "/login ".data = false)
    (h2 : startsWithL input.data "/join ".data = false)
    (h3 : startsWithL input.data "/leave".data = false)
    (h4 : startsWithL input.data "/reset".data = false)
    (h5 : startsWithL input.data "/clear-cache".data = false)
    (h6 : startsWithL input.data "/roll ".data = false)
    (h7 : startsWithL input.data "/scene ".data = false)
    (h8 : startsWithL input.data "/narrate ".data = false)
    (h9 : startsWithL input.data "/delete".data = false)
    (h10 : startsWithL input.data "/logout".data = false) :
    processCommand input = .unknownCmd ∧
    outcomeEffect (processCommand input) = .pureFailure ∧
    outcomeErrorMsg (processCommand input) = some "Unknown command" := by
  obtain ⟨rest, hcs⟩ : ∃ rest, input.data = '/' :: rest := by
    cases hc : input.data with
    | nil =>
      rw [hc] at h0
      exact absurd h0 (by decide)
    | cons c rest =>
      rw [hc] at h0
      have hc' : c = '/' := by
        by_contra hne
        rw [show ("/".data) = ['/'] from rfl] at h0
        simp [startsWithL, hne] at h0
      subst hc'
      exact ⟨rest, rfl⟩
  rw [hcs] at h0 h1 h2 h3 h4 h5 h6 h7 h8 h9 h10
  have hnn : ¬('/' :: rest = "narrate".data) := by
    rw [show "narrate".data = 'n' :: "arrate".data by rfl, List.cons.injEq]
    intro h
    exact absurd h.1 (by decide)
  have hnsw : startsWithL ('/' :: rest) "narrate ".data = false := rfl
  unfold processCommand
  rw [hcs]
  simp only [h0, h1, h2, h3, h4, h5, h6, h7, h8, h9, h10, hnsw]
  simp [hnn, outcomeEffect, outcomeErrorMsg]

/-- Witness for the amended C3: the input `"/unknown"` dispatches to the
unknown-command branch. -/
theorem unknown_command_pure_failure_witness :
    processCommand "/unknown" = .unknownCmd ∧
    outcomeEffect (processCommand "/unknown") = .pureFailure ∧
    outcomeErrorMsg (processCommand "/unknown") = some "Unknown command" :=
  unknown_command_pure_failure "/unknown" (by decide) (by decide) (by decide)
    (by decide) (by decide) (by decide) (by decide) (by decide) (by decide)
    (by decide) (by decide)

/-! ## History loader theorems -/

lemma buildHistoricalMessage_important (roomId : String) (powerOf : String → Nat)
    (ev : MatrixEvent) : (buildHistoricalMessage roomId powerOf ev).important = false := by
  unfold buildHistoricalMessage
  dsimp only
  split
  · rfl
  · split
    · rfl
    · rfl

/-- Counterexample to claim C1 as stated: a fresh, unredacted
`m.room.message` event processed by a backward page during the
joinRoom-driven history load (`isLoadingHistory = true`, as `joinRoom`
sets it before calling `_loadRoomHistory`) is inserted into the cache but
nothing is published on the Event Bus — `_processHistoricalMessage`
returns early for non-`important` messages while the flag is set. -/
theorem history_publish_counterexample :
    ((processEvents "!r:matrix.org" (fun _ => 0)
        { processed := [], cache := fun _ => [], published := [],
          isLoadingHistory := true }
        [{ id := "$e1", typ := "m.room.message", sender := "@a:matrix.org",
           ts := 1, redacted := false, body := "hi", format := none,
           fbType := none }]).1.cache "!r:matrix.org" ≠ []) ∧
    ((processEvents "!r:matrix.org" (fun _ => 0)
        { processed := [], cache := fun _ => [], published := [],
          isLoadingHistory := true }
        [{ id := "$e1", typ := "m.room.message", sender := "@a:matrix.org",
           ts := 1, redacted := false, body := "hi", format := none,
           fbType := none }]).1.published = []) := by
  exact ⟨by decide, rfl⟩

/-- Amended claim C1: for every fetched-page event that is a message
event, not redacted, and not already processed by event id, the loader
marks it processed, builds the Message, and inserts it into the Cache —
but it does not publish it to the Event Bus: during the load
`isLoadingHistory` is true and historical messages carry no `important`
flag, so `_processHistoricalMessage` suppresses the publication (only the
cached-record replay that `joinRoom` performs before setting the flag is
published). -/
theorem history_event_cached_not_published (roomId : String)
    (powerOf : String → Nat) (st : LoadState) (k : Nat) (ev : MatrixEvent)
    (hload : st.isLoadingHistory = true)
    (hfresh : st.processed.contains ev.id = false)
    (hred : ev.redacted = false)
    (htyp : ev.typ = "m.room.message") :
    processOneEvent roomId powerOf (st, k) ev =
      ({ st with
          processed := st.processed ++ [ev.id]
          cache := addMessageToCache st.cache roomId
            (buildHistoricalMessage roomId powerOf ev) }, k + 1) ∧
    (processOneEvent roomId powerOf (st, k) ev).1.published = st.published := by
  have h1 : processOneEvent roomId powerOf (st, k) ev =
      ({ st with
          processed := st.processed ++ [ev.id]
          cache := addMessageToCache st.cache roomId
            (buildHistoricalMessage roomId powerOf ev) }, k + 1) := by
    unfold processOneEvent
    dsimp only
    rw [hfresh, hred]
    simp only [Bool.or_self, Bool.false_eq_true, if_false, htyp, if_pos]
    unfold processHistoricalMessage
    rw [if_pos]
    constructor
    · exact hload
    · rw [buildHistoricalMessage_important]
      exact Bool.false_ne_true
  exact ⟨h1, by rw [h1]⟩

/-- Witness for the amended C1 at a concrete event and load state. -/
theorem history_event_cached_not_published_witness :
    (processOneEvent "!r:matrix.org" (fun _ => 0)
      ({ processed := [], cache := fun _ => [], published := [],
         isLoadingHistory := true }, 0)
      { id := "$e1", typ := "m.room.message", sender := "@a:matrix.org",
        ts := 1, redacted := false, body := "hi", format := none,
        fbType := none }).1.published = [] :=
  (history_event_cached_not_published "!r:matrix.org" (fun _ => 0)
    { processed := [], cache := fun _ => [], published := [],
      isLoadingHistory := true } 0
    { id := "$e1", typ := "m.room.message", sender := "@a:matrix.org",
      ts := 1, redacted := false, body := "hi", format := none,
      fbType := none }
    rfl (by decide) rfl rfl).2

/-! ## Pagination theorems -/

/-- Claim C9: a rate-limit rejection is the only retried failure — the
loader records a wait of the server-specified `retry_after_ms` (5000 ms
when absent) and resumes pagination on the remaining responses, while any
other rejection ends pagination immediately (the result does not depend on
the remaining scripted responses) and surfaces a system-type message on
the `message` channel of the Event Bus rather than a fatal error. -/
theorem pagination_retry_policy (roomId : String) (powerOf : String → Nat)
    (rest : List PageResponse) (st : LoadState) (ra : Option Nat) (msg : String) :
    (paginateBackward roomId powerOf (.rateLimited ra :: rest) st =
      ((paginateBackward roomId powerOf rest st).1,
       .waited (jsOrDefault ra 5000) :: (paginateBackward roomId powerOf rest st).2)) ∧
    jsOrDefault none 5000 = 5000 ∧
    (paginateBackward roomId powerOf (.failure msg :: rest) st =
      (publishSystem st roomId
        ("Couldn't load more history: " ++ jsOrStr msg "Unknown error"),
       [.publishedSystem
        ("Couldn't load more history: " ++ jsOrStr msg "Unknown error")])) ∧
    (publishSystem st roomId
        ("Couldn't load more history: " ++ jsOrStr msg "Unknown error")).published =
      st.published ++ [("message",
        systemNotice roomId ("Couldn't load more history: " ++ jsOrStr msg "Unknown error"))] ∧
    (systemNotice roomId ("Couldn't load more history: " ++ jsOrStr msg "Unknown error")).type
      = "system" :=
  ⟨rfl, rfl, rfl, rfl, rfl⟩

/-! ## Listener register theorems -/

lemma find?_eq_none_of_not_mem_keys {H : Type} (l : List (String × List H))
    (name : String) (h : name ∉ l.map Prod.fst) :
    l.find? (fun p => p.1 = name) = none := by
  induction l with
  | nil => rfl
  | cons p ps ih =>
    simp only [List.map_cons, List.mem_cons] at h
    push_neg at h
    rw [List.find?_cons_of_neg _ (by simp; exact fun hq => h.1 hq.symm)]
    exact ih h.2

/-- Claim C10: for an event name outside the client's fixed listener table
(the nine constructor-initialized keys), `on` leaves the listener state
unchanged and returns the client itself, `off` is likewise a no-op
returning the client, no trigger of that name invokes anything, and a
handler registered only under such a name is never invoked by any event
trigger. -/
theorem listeners_unknown_event {H : Type} [DecidableEq H] (c : Client H)
    (name : String) (h : H)
    (hn : name ∉ knownEventNames)
    (hc : c.listeners.map Prod.fst = knownEventNames) :
    c.on name h = c ∧ c.off name h = c ∧ c.triggerEvent name = [] ∧
    ((∀ n, h ∉ c.triggerEvent n) → ∀ n, h ∉ (c.on name h).triggerEvent n) := by
  have hfind : lookupListeners c name = none := by
    unfold lookupListeners
    rw [find?_eq_none_of_not_mem_keys c.listeners name (by rw [hc]; exact hn)]
    rfl
  have hon : c.on name h = c := by
    unfold Client.on
    rw [hfind]
  refine ⟨hon, ?_, ?_, ?_⟩
  · unfold Client.off
    rw [hfind]
  · unfold Client.triggerEvent
    rw [hfind]
    rfl
  · intro hnever n
    rw [hon]
    exact hnever n

/-- Witness for C10: on the freshly constructed client, registering,
deregistering, and triggering the unknown event name `"foobar"` all do
nothing. -/
theorem listeners_unknown_event_witness :
    (initClient Nat).on "foobar" 7 = initClient Nat ∧
    (initClient Nat).off "foobar" 7 = initClient Nat ∧
    (initClient Nat).triggerEvent "foobar" = [] :=
  ⟨(listeners_unknown_event (initClient Nat) "foobar" 7 (by decide) (by decide)).1,
   (listeners_unknown_event (initClient Nat) "foobar" 7 (by decide) (by decide)).2.1,
   (listeners_unknown_event (initClient Nat) "foobar" 7 (by decide) (by decide)).2.2.1⟩

end MatrixRPG
